import Mathlib

/-!
Verification of the arrakoids particle engine (src/main.rs) against its
natural-language specification.

Shallow embedding conventions:
* `f32` scalars are modelled as exact rationals `ℚ`; the one place where the
  source computes a square root (`Vec2::normalize`, used on wall normals in
  `handle_collision`) is modelled exactly over `ℝ` in a dedicated section,
  because normalizing a diagonal normal is irrational.  Everywhere else the
  resolver is parametrized by the normalization function `nrm`.
* bevy's `Entity` is an opaque stable identifier: modelled as `ℕ`.
* `HashMap<IVec2, Entity>` (the spatial index) is an association list with
  insert-replaces semantics; `Query<&mut Particle>` (the entity store) is an
  association list from identifier to particle state.
* The unbounded mutual recursion `handle_collision` / `resolve_particle` is
  modelled with an explicit fuel parameter; exhausted fuel returns the state
  unchanged.
* Rust `f32::round` rounds half away from zero; `roundAway` mirrors that.

Rat's arithmetic is `@[irreducible]` in Batteries; restore reducibility so
that concrete runs of the engine can be evaluated by `decide`.
-/

attribute [local semireducible] Rat.add Rat.sub Rat.mul Rat.inv

namespace Arrakoids

/-- bevy `Vec2` with exact-rational components. -/
structure Vec2 where
  x : ℚ
  y : ℚ
deriving DecidableEq, Repr

/-- glam `IVec2`. -/
structure IVec2 where
  x : ℤ
  y : ℤ
deriving DecidableEq, Repr

/-- `Vec2::ZERO`. -/
def Vec2.ZERO : Vec2 := ⟨0, 0⟩

instance : Add Vec2 := ⟨fun a b => ⟨a.x + b.x, a.y + b.y⟩⟩

instance : Sub Vec2 := ⟨fun a b => ⟨a.x - b.x, a.y - b.y⟩⟩

/-- glam multiplies `Vec2 * Vec2` componentwise (not a dot product). -/
instance : Mul Vec2 := ⟨fun a b => ⟨a.x * b.x, a.y * b.y⟩⟩

/-- scalar · vector (`f32 * Vec2`). -/
instance : SMul ℚ Vec2 := ⟨fun c v => ⟨c * v.x, c * v.y⟩⟩

/-- vector · scalar (`Vec2 * f32`). -/
instance : HMul Vec2 ℚ Vec2 := ⟨fun v c => ⟨v.x * c, v.y * c⟩⟩

/-- vector / scalar (`Vec2 / f32`). -/
instance : HDiv Vec2 ℚ Vec2 := ⟨fun v c => ⟨v.x / c, v.y / c⟩⟩

/-- `position.floor().as_ivec2()`: componentwise floor to the grid cell. -/
def Vec2.floorVec (v : Vec2) : IVec2 := ⟨⌊v.x⌋, ⌊v.y⌋⟩

/-- Rust `f32::round`: nearest integer, halves away from zero. -/
def roundAway (q : ℚ) : ℤ := if 0 ≤ q then ⌊q + 1/2⌋ else -⌊-q + 1/2⌋

/-- glam `Vec2::round` (componentwise Rust rounding). -/
def Vec2.roundVec (v : Vec2) : Vec2 := ⟨(roundAway v.x : ℚ), (roundAway v.y : ℚ)⟩

/-- One scalar component rounded to 2 decimal places, as the source's
`(v * 100.).round() / 100.` does. -/
def roundTo2 (q : ℚ) : ℚ := (roundAway (q * 100) : ℚ) / 100

/-- A velocity with each component rounded to 2 decimal places. -/
def Vec2.round2 (v : Vec2) : Vec2 := ⟨roundTo2 v.x, roundTo2 v.y⟩

/-- bevy `Rect<f32>`. -/
structure Rect where
  left : ℚ
  right : ℚ
  top : ℚ
  bottom : ℚ
deriving DecidableEq, Repr

/-- `BoundsExt::outside for Rect<f32>` (main.rs lines 27-44): build the inward
normal by independent axis checks; return it when nonzero.  Pure function, no
side effects (the receiver is `&self`). -/
def Rect.outside (r : Rect) (point : Vec2) : Option Vec2 :=
  let nx : ℚ := if point.x < r.left then 1 else if point.x > r.right then -1 else 0
  let ny : ℚ := if point.y < r.bottom then 1 else if point.y > r.top then -1 else 0
  let normal : Vec2 := ⟨nx, ny⟩
  if normal ≠ Vec2.ZERO then some normal else none

/-- Association-list model of `HashMap<IVec2, Entity>`: lookup. -/
def lookupCell : List (IVec2 × ℕ) → IVec2 → Option ℕ
  | [], _ => none
  | (c, e) :: rest, c' => if c = c' then some e else lookupCell rest c'

/-- `HashMap::remove`. -/
def removeCell : List (IVec2 × ℕ) → IVec2 → List (IVec2 × ℕ)
  | [], _ => []
  | (c, e) :: rest, c' => if c = c' then removeCell rest c' else (c, e) :: removeCell rest c'

/-- `HashMap::insert` (replaces any previous binding of the cell). -/
def insertCell (m : List (IVec2 × ℕ)) (c : IVec2) (e : ℕ) : List (IVec2 × ℕ) :=
  (c, e) :: removeCell m c

/-- `ParticleLookup`: bounds plus the cell → entity occupancy map. -/
structure ParticleLookup where
  bounds : Rect
  particles : List (IVec2 × ℕ)
deriving DecidableEq, Repr

/-- `ParticleLookup::new(width, height)`. -/
def ParticleLookup.new (width height : ℤ) : ParticleLookup :=
  { bounds :=
      { left := -(width : ℚ) / 2
        right := (width : ℚ) / 2
        top := (height : ℚ) / 2
        bottom := -(height : ℚ) / 2 }
    particles := [] }

def ParticleLookup.get (l : ParticleLookup) (c : IVec2) : Option ℕ :=
  lookupCell l.particles c

def ParticleLookup.remove (l : ParticleLookup) (c : IVec2) : ParticleLookup :=
  { l with particles := removeCell l.particles c }

def ParticleLookup.insert (l : ParticleLookup) (c : IVec2) (e : ℕ) : ParticleLookup :=
  { l with particles := insertCell l.particles c e }

/-- The `Particle` component. -/
structure Particle where
  position : Vec2
  velocity : Vec2
  mass : ℚ
  elasticity : ℚ
deriving DecidableEq, Repr

/-- `Particle::GRAVITY`. -/
def Particle.GRAVITY : Vec2 := ⟨0, -1⟩

/-- `ParticleCollisionEvent`. -/
inductive ParticleCollisionEvent where
  | World : ℕ → Vec2 → ParticleCollisionEvent
  | Particle : ℕ → ℕ → ParticleCollisionEvent
deriving DecidableEq, Repr

/-- Entity-store lookup (`Query::get`): first binding of the identifier. -/
def getParticle : List (ℕ × Particle) → ℕ → Option Particle
  | [], _ => none
  | (i, q) :: rest, e => if i = e then some q else getParticle rest e

/-- Entity-store mutation through a `&mut Particle`: replace the (first)
binding of an existing identifier; a write to an absent identifier is
impossible in the source (the borrow proves existence) and is a no-op here. -/
def setParticle : List (ℕ × Particle) → ℕ → Particle → List (ℕ × Particle)
  | [], _, _ => []
  | (i, q) :: rest, e, p => if i = e then (i, p) :: rest else (i, q) :: setParticle rest e p

/-- `calculate_collision` (main.rs lines 175-177). -/
def calculate_collision (current other : Particle) : Vec2 :=
  ((current.elasticity * other.mass) • (other.velocity - current.velocity) +
      current.mass • current.velocity + other.mass • other.velocity) /
    (current.mass + other.mass)

/-- `check_for_collision` (main.rs lines 179-197): bounds first, then the
spatial index, ignoring an occupant equal to the entity itself. -/
def check_for_collision (entity : ℕ) (potential_position : Vec2)
    (particle_lookup : ParticleLookup) : Option ParticleCollisionEvent :=
  let potential_point := potential_position.floorVec
  match particle_lookup.bounds.outside potential_position with
  | some wall_normal => some (.World entity wall_normal)
  | none =>
    match particle_lookup.get potential_point with
    | some colliding_entity =>
        if colliding_entity ≠ entity then some (.Particle entity colliding_entity) else none
    | none => none

/-!
The recursive resolver, main.rs lines 199-259.  The source recursion is
unbounded; `fuel` makes it total, with exhausted fuel leaving the store
untouched.  `nrm` abstracts glam's `Vec2::normalize` (`v / v.length()`),
whose exact value on diagonal normals is irrational and hence not a rational;
every theorem about the resolver holds for an arbitrary `nrm`, and the
normalization formula itself is settled exactly over `ℝ` below.
-/

/-- The mutual recursion `handle_collision` ↔ `resolve_particle`, merged into
one structurally fuel-indexed function so that concrete runs reduce inside the
kernel: `Sum.inl ev` is the body of `handle_collision ev` (main.rs lines
221-259) and `Sum.inr e` the body of `resolve_particle e` (lines 199-219).
Each hop between the two consumes one unit of fuel. -/
def resolveGo (nrm : Vec2 → Vec2) :
    ℕ → ParticleCollisionEvent ⊕ ℕ → List (ℕ × Particle) → ParticleLookup →
      List (ℕ × Particle)
  | 0, _, particles, _ => particles
  | fuel + 1, .inl (.Particle entity_a entity_b), particles, particle_lookup =>
    -- `handle_collision`, `ParticleCollisionEvent::Particle` arm: the two
    -- `get_many_mut([a, b])` blocks, which succeed exactly when the two ids
    -- are distinct and both present.
    let particles₁ :=
      if entity_a ≠ entity_b then
        match getParticle particles entity_a, getParticle particles entity_b with
        | some particle_a, some particle_b =>
          let new_a_velocity := calculate_collision particle_a particle_b
          let new_b_velocity := calculate_collision particle_b particle_a
          let ps₁ := setParticle particles entity_a
            { particle_a with velocity := (new_a_velocity * (100 : ℚ)).roundVec / (100 : ℚ) }
          let ps₂ := setParticle ps₁ entity_b
            { particle_b with velocity := (new_b_velocity * (100 : ℚ)).roundVec / (100 : ℚ) }
          resolveGo nrm fuel (.inr entity_b) ps₂ particle_lookup
        | _, _ => particles
      else particles
    if entity_a ≠ entity_b then
      match getParticle particles₁ entity_a, getParticle particles₁ entity_b with
      | some particle_a, some particle_b =>
        let new_a_velocity := calculate_collision particle_a particle_b
        setParticle particles₁ entity_a
          { particle_a with velocity := (new_a_velocity * (100 : ℚ)).roundVec / (100 : ℚ) }
      | _, _ => particles₁
    else particles₁
  | fuel + 1, .inl (.World entity normal), particles, particle_lookup =>
    -- `handle_collision`, `ParticleCollisionEvent::World` arm.
    match getParticle particles entity with
    | some particle =>
      let reflected :=
        particle.velocity - ((1 + particle.elasticity) • (particle.velocity * normal)) * nrm normal
      let ps₁ := setParticle particles entity
        { particle with velocity := (reflected * (100 : ℚ)).roundVec / (100 : ℚ) }
      resolveGo nrm fuel (.inr entity) ps₁ particle_lookup
    | none => particles
  | fuel + 1, .inr entity, particles, particle_lookup =>
    -- `resolve_particle`: if the entity still exists, moves, and its
    -- predicted cell differs from its current cell, run detection again and
    -- resolve any collision found.
    match getParticle particles entity with
    | some particle =>
      if particle.velocity ≠ Vec2.ZERO then
        let current_point := particle.position.floorVec
        let potential_position := particle.position + particle.velocity
        let potential_point := potential_position.floorVec
        if potential_point ≠ current_point then
          match check_for_collision entity potential_position particle_lookup with
          | some collision => resolveGo nrm fuel (.inl collision) particles particle_lookup
          | none => particles
        else particles
      else particles
    | none => particles

/-- `handle_collision` (main.rs lines 221-259). -/
def handle_collision (nrm : Vec2 → Vec2) (fuel : ℕ) (collision : ParticleCollisionEvent)
    (particles : List (ℕ × Particle)) (particle_lookup : ParticleLookup) :
    List (ℕ × Particle) :=
  resolveGo nrm fuel (.inl collision) particles particle_lookup

/-- `resolve_particle` (main.rs lines 199-219). -/
def resolve_particle (nrm : Vec2 → Vec2) (fuel : ℕ) (entity : ℕ)
    (particles : List (ℕ × Particle)) (particle_lookup : ParticleLookup) :
    List (ℕ × Particle) :=
  resolveGo nrm fuel (.inr entity) particles particle_lookup

/-!  Collision discovery, main.rs lines 135-173.  `h a b` models the value of
`hasher.finish()` after hashing entity `a` then entity `b`: an arbitrary
deterministic fingerprint function, possibly with collisions.  `dt` is
`time.delta_seconds()`. -/

/-- Loop body of `discover_collisions` after the gravity update: emit at most
one event for this particle, threading the per-pass `handled` fingerprint set.
Pair events are dropped when either metadata ordering's fingerprint was
already handled; world events bypass deduplication. -/
def discover_emit (h : ℕ → ℕ → ℕ) (particle_lookup : ParticleLookup) (entity : ℕ)
    (particle : Particle) (handled : List ℕ) (events : List ParticleCollisionEvent) :
    List ℕ × List ParticleCollisionEvent :=
  if particle.velocity ≠ Vec2.ZERO then
    let current_point := particle.position.floorVec
    let potential_position := particle.position + particle.velocity
    let potential_point := potential_position.floorVec
    if potential_point ≠ current_point then
      match check_for_collision entity potential_position particle_lookup with
      | some collision =>
        match collision with
        | .Particle a b =>
          if h a b ∈ handled then (handled, events)
          else if h b a ∈ handled then (handled, events)
          else (h a b :: handled, events ++ [.Particle a b])
        | .World e n => (handled, events ++ [.World e n])
      | none => (handled, events)
    else (handled, events)
  else (handled, events)

/-- `discover_collisions` (main.rs lines 135-173) over the store in iteration
order: apply gravity to every particle (`velocity += GRAVITY * dt`,
unconditionally), predict the next cell, and emit deduplicated events.
Returns the updated store, the fingerprint set, and the emitted events. -/
def discoverGo (h : ℕ → ℕ → ℕ) (dt : ℚ) (particle_lookup : ParticleLookup) :
    List (ℕ × Particle) → List ℕ → List ParticleCollisionEvent →
      List (ℕ × Particle) × List ℕ × List ParticleCollisionEvent
  | [], handled, events => ([], handled, events)
  | (entity, particle) :: rest, handled, events =>
    let particle' := { particle with velocity := particle.velocity + Particle.GRAVITY * dt }
    let he := discover_emit h particle_lookup entity particle' handled events
    let r := discoverGo h dt particle_lookup rest he.1 he.2
    ((entity, particle') :: r.1, r.2.1, r.2.2)

/-- One full discovery pass starting from an empty fingerprint set and no
events, as each run of the system does. -/
def discover_collisions (h : ℕ → ℕ → ℕ) (dt : ℚ) (particle_lookup : ParticleLookup)
    (particles : List (ℕ × Particle)) :
    List (ℕ × Particle) × List ℕ × List ParticleCollisionEvent :=
  discoverGo h dt particle_lookup particles [] []

/-- Per-particle body of `handle_movement` (main.rs lines 275-289): update the
spatial index when the cell changes (removing the old entry only when it still
points at this entity), then commit `position += velocity` unconditionally.
The `Transform` write (rendering) is outside the model. -/
def movement_step (entity : ℕ) (particle : Particle) (particle_lookup : ParticleLookup) :
    Particle × ParticleLookup :=
  let current_point := particle.position.floorVec
  let new_position := particle.position + particle.velocity
  let new_point := new_position.floorVec
  let lookup' :=
    if current_point ≠ new_point then
      let l₁ :=
        if particle_lookup.get current_point = some entity then
          particle_lookup.remove current_point
        else particle_lookup
      l₁.insert new_point entity
    else particle_lookup
  ({ particle with position := new_position }, lookup')

/-- `handle_movement` (main.rs lines 271-291) over the store in iteration
order, threading the mutable `ResMut<ParticleLookup>`. -/
def movementGo : List (ℕ × Particle) → ParticleLookup → List (ℕ × Particle) × ParticleLookup
  | [], particle_lookup => ([], particle_lookup)
  | (entity, particle) :: rest, particle_lookup =>
    let s := movement_step entity particle particle_lookup
    let r := movementGo rest s.2
    ((entity, s.1) :: r.1, r.2)

/-!  The frame/tick pipeline from `main` (main.rs lines 5-18): every frame runs
`handle_collisions` (consuming the events queued by the previous frame's
discovery), then, on fixed-timestep frames, `discover_collisions` followed by
`handle_movement`.  We model the reachable executions in which every frame is
a fixed-timestep frame with `dt` seconds elapsed. -/

structure WorldState where
  particles : List (ℕ × Particle)
  lookup : ParticleLookup
  pending : List ParticleCollisionEvent
deriving DecidableEq, Repr

/-- `handle_collisions` (main.rs lines 261-269): resolve queued events in
order.  The `ParticleLookup` is taken by shared reference (`Res`): resolution
can never write the spatial index. -/
def handle_collisions (nrm : Vec2 → Vec2) (fuel : ℕ) (events : List ParticleCollisionEvent)
    (particles : List (ℕ × Particle)) (particle_lookup : ParticleLookup) :
    List (ℕ × Particle) :=
  events.foldl (fun ps ev => handle_collision nrm fuel ev ps particle_lookup) particles

/-- The resolver phase of a frame: only the particle store changes. -/
def resolver_phase (nrm : Vec2 → Vec2) (fuel : ℕ) (w : WorldState) : WorldState :=
  { particles := handle_collisions nrm fuel w.pending w.particles w.lookup
    lookup := w.lookup
    pending := [] }

/-- The discovery phase of a tick: gravity plus freshly queued events. -/
def discovery_phase (h : ℕ → ℕ → ℕ) (dt : ℚ) (w : WorldState) : WorldState :=
  let r := discoverGo h dt w.lookup w.particles [] []
  { particles := r.1, lookup := w.lookup, pending := r.2.2 }

/-- The movement phase of a tick. -/
def movement_phase (w : WorldState) : WorldState :=
  let r := movementGo w.particles w.lookup
  { particles := r.1, lookup := r.2, pending := w.pending }

/-- One frame containing one fixed-timestep tick: resolver, then discovery,
then movement (the `after` ordering in `main`). -/
def tick (nrm : Vec2 → Vec2) (h : ℕ → ℕ → ℕ) (fuel : ℕ) (dt : ℚ) (w : WorldState) :
    WorldState :=
  movement_phase (discovery_phase h dt (resolver_phase nrm fuel w))

def ticks (nrm : Vec2 → Vec2) (h : ℕ → ℕ → ℕ) (fuel : ℕ) (dt : ℚ) :
    ℕ → WorldState → WorldState
  | 0, w => w
  | n + 1, w => ticks nrm h fuel dt n (tick nrm h fuel dt w)

/-- A concrete stand-in for glam's `Vec2::normalize`, exact on axis-aligned
vectors (`v / |v|` is rational there) and the identity elsewhere; diagonal
normals cannot be normalized inside `ℚ` — the reflection formula is treated
exactly over `ℝ` below.  Every resolver theorem in this file is proved for an
arbitrary normalization function; this one only instantiates concrete runs in
which normalization is never reached or only reached on axis vectors. -/
def axisNormalize (v : Vec2) : Vec2 :=
  if v.y = 0 then ⟨v.x / |v.x|, 0⟩ else if v.x = 0 then ⟨0, v.y / |v.y|⟩ else v

/-- A concrete deterministic fingerprint function for concrete runs. -/
def pairHash (a b : ℕ) : ℕ := 1000003 * a + b

/-- The two particles spawned by `setup` (main.rs lines 114-132): `x` ranges
over `0..3` skipping `0`, giving particles at `(1, 0)` and `(2, 0)`, both with
velocity `(signum x, 0) = (1, 0)`, mass `1`, elasticity `0.4`. -/
def initialParticles : List (ℕ × Particle) :=
  [(1, { position := ⟨1, 0⟩, velocity := ⟨1, 0⟩, mass := 1, elasticity := 2/5 }),
   (2, { position := ⟨2, 0⟩, velocity := ⟨1, 0⟩, mass := 1, elasticity := 2/5 })]

/-- The startup state: `ParticleLookup::new(40, 20)` (so the playable area is
`[-20, 20] × [-10, 10]`), the two spawned particles, no pending events, and an
empty spatial index (nothing populates it until a movement pass runs). -/
def initialWorld : WorldState :=
  { particles := initialParticles
    lookup := ParticleLookup.new 40 20
    pending := [] }

/-- The fields of a particle other than its velocity: what the resolver is
claimed never to touch. -/
def skeletonOf (p : Particle) : Vec2 × ℚ × ℚ := (p.position, p.mass, p.elasticity)

/-- C2's description of pair resolution, written from the spec's words: with
both particles present, apply `newVelocity(self, other)` for each side,
assign both velocities with each component rounded to 2 decimal places,
recursively re-check B alone, then recompute A's velocity once more by the
same formula against B's post-recursion state (rounded, but A is not itself
recursively re-checked). -/
def pairResolutionDescribed (nrm : Vec2 → Vec2) (fuel : ℕ) (entity_a entity_b : ℕ)
    (particles : List (ℕ × Particle)) (particle_lookup : ParticleLookup) :
    List (ℕ × Particle) :=
  match getParticle particles entity_a, getParticle particles entity_b with
  | some particle_a, some particle_b =>
    let ps₁ := setParticle particles entity_a
      { particle_a with velocity := (calculate_collision particle_a particle_b).round2 }
    let ps₂ := setParticle ps₁ entity_b
      { particle_b with velocity := (calculate_collision particle_b particle_a).round2 }
    let ps₃ := resolve_particle nrm fuel entity_b ps₂ particle_lookup
    match getParticle ps₃ entity_a, getParticle ps₃ entity_b with
    | some particle_a', some particle_b' =>
      setParticle ps₃ entity_a
        { particle_a' with velocity := (calculate_collision particle_a' particle_b').round2 }
    | _, _ => ps₃
  | _, _ => particles

/-- C4's description of detection, written from the spec's words: the bounds
test takes precedence and yields a `World` event; otherwise an occupant of the
predicted cell other than the checked particle yields a `Particle` event; an
empty cell or the particle itself yields no collision. -/
def checkForCollisionDescribed (entity : ℕ) (potential_position : Vec2)
    (particle_lookup : ParticleLookup) : Option ParticleCollisionEvent :=
  match particle_lookup.bounds.outside potential_position with
  | some normal => some (.World entity normal)
  | none =>
    match particle_lookup.get potential_position.floorVec with
    | some occupant =>
        if occupant = entity then none else some (.Particle entity occupant)
    | none => none

/-- Does an event report the unordered particle pair `{a, b}`? -/
def pairEventMatches (a b : ℕ) : ParticleCollisionEvent → Bool
  | .Particle x y => (x == a && y == b) || (x == b && y == a)
  | .World _ _ => false

/-- How many events of a pass report the unordered pair `{a, b}`. -/
def countPair (a b : ℕ) (events : List ParticleCollisionEvent) : ℕ :=
  (events.filter (pairEventMatches a b)).length

/-- The spec's deduplication scenario (§8): particle 1 in cell `(0, 0)`
predicted to move into particle 2's cell `(1, 0)`, and particle 2 predicted to
move into particle 1's cell, in the same pass.  Velocities are chosen so that
the pass's gravity update (`dt = 1/4`) leaves them horizontal. -/
def headOnParticles : List (ℕ × Particle) :=
  [(1, { position := ⟨1/2, 1/2⟩, velocity := ⟨1, 1/4⟩, mass := 1, elasticity := 2/5 }),
   (2, { position := ⟨3/2, 1/2⟩, velocity := ⟨-1, 1/4⟩, mass := 1, elasticity := 2/5 })]

/-- Spatial index for the deduplication scenario. -/
def headOnLookup : ParticleLookup :=
  { bounds := (ParticleLookup.new 40 20).bounds
    particles := [(⟨0, 0⟩, 1), (⟨1, 0⟩, 2)] }

/-- Kinetic energy `½·m·|v|²` of mass `m` at velocity `v`. -/
def keOf (m : ℚ) (v : Vec2) : ℚ := 1/2 * m * (v.x * v.x + v.y * v.y)

/-- Kinetic energy of a particle. -/
def kineticEnergy (p : Particle) : ℚ := keOf p.mass p.velocity

/-- C9 fixture: a resting particle with elasticity 1. -/
def ce9A : Particle := { position := ⟨0, 0⟩, velocity := ⟨0, 0⟩, mass := 1, elasticity := 1 }

/-- C9 fixture: a moving particle with elasticity 0. -/
def ce9B : Particle := { position := ⟨1, 0⟩, velocity := ⟨1, 0⟩, mass := 1, elasticity := 0 }

/-- C9 fixture: equal velocities, elasticity 0. -/
def ce9C : Particle := { position := ⟨0, 0⟩, velocity := ⟨1, 0⟩, mass := 1, elasticity := 0 }

/-- C9 fixture: equal velocities, elasticity 0. -/
def ce9D : Particle := { position := ⟨1, 0⟩, velocity := ⟨1, 0⟩, mass := 1, elasticity := 0 }

/-- The particle spawned at `(1, 0)` by `setup`, for witness instantiations. -/
def pOne : Particle := { position := ⟨1, 0⟩, velocity := ⟨1, 0⟩, mass := 1, elasticity := 2/5 }

/-- The particle spawned at `(2, 0)` by `setup`, for witness instantiations. -/
def pTwo : Particle := { position := ⟨2, 0⟩, velocity := ⟨1, 0⟩, mass := 1, elasticity := 2/5 }

/-!  The wall-reflection formula over `ℝ`, where glam's `Vec2::normalize`
(`v / v.length()`, a square root) is exact.  Components are `ℝ × ℝ` pairs. -/

noncomputable section

/-- glam `Vec2::length`: `√(x² + y²)`. -/
def lengthR (v : ℝ × ℝ) : ℝ := Real.sqrt (v.1 * v.1 + v.2 * v.2)

/-- glam `Vec2::normalize`: `v / v.length()`. -/
def normalizeR (v : ℝ × ℝ) : ℝ × ℝ := (v.1 / lengthR v, v.2 / lengthR v)

/-- Rust `f32::round` over `ℝ`: nearest integer, halves away from zero. -/
def roundAwayR (x : ℝ) : ℤ := if 0 ≤ x then ⌊x + 1/2⌋ else -⌊-x + 1/2⌋

/-- One component rounded to 2 decimal places over `ℝ`. -/
def roundTo2R (x : ℝ) : ℝ := (roundAwayR (x * 100) : ℝ) / 100

/-- The wall reflection the code computes (main.rs lines 251-252):
`velocity - (1 + elasticity) * (velocity * normal) * normal.normalize()`,
where both `*` between vectors are glam's componentwise products, followed by
the 2-decimal rounding. -/
def wall_reflect (v n : ℝ × ℝ) (e : ℝ) : ℝ × ℝ :=
  (roundTo2R (v.1 - (1 + e) * (v.1 * n.1) * (normalizeR n).1),
   roundTo2R (v.2 - (1 + e) * (v.2 * n.2) * (normalizeR n).2))

/-- The wall reflection as the claim states it:
`velocity − (1+elasticity)·(velocity · normal)·normalize(normal)` with a dot
product of velocity and normal, followed by the 2-decimal rounding. -/
def wall_reflect_claimed (v n : ℝ × ℝ) (e : ℝ) : ℝ × ℝ :=
  (roundTo2R (v.1 - (1 + e) * (v.1 * n.1 + v.2 * n.2) * (normalizeR n).1),
   roundTo2R (v.2 - (1 + e) * (v.1 * n.1 + v.2 * n.2) * (normalizeR n).2))

end

/-!  Theorems.  First the small unfolding lemmas for the vector instances and
the store/index maps, then the per-claim results. -/

theorem Vec2.add_def (a b : Vec2) : a + b = ⟨a.x + b.x, a.y + b.y⟩ := rfl

theorem Vec2.sub_def (a b : Vec2) : a - b = ⟨a.x - b.x, a.y - b.y⟩ := rfl

theorem Vec2.mul_def (a b : Vec2) : a * b = ⟨a.x * b.x, a.y * b.y⟩ := rfl

theorem Vec2.smul_def (c : ℚ) (v : Vec2) : c • v = ⟨c * v.x, c * v.y⟩ := rfl

theorem Vec2.hmul_def (v : Vec2) (c : ℚ) : v * c = ⟨v.x * c, v.y * c⟩ := rfl

theorem Vec2.hdiv_def (v : Vec2) (c : ℚ) : v / c = ⟨v.x / c, v.y / c⟩ := rfl

theorem Vec2.round2_eq (v : Vec2) : (v * (100 : ℚ)).roundVec / (100 : ℚ) = v.round2 := rfl

theorem getParticle_setParticle (ps : List (ℕ × Particle)) (e0 : ℕ) (p : Particle) :
    ∀ e, getParticle (setParticle ps e0 p) e =
      if e = e0 ∧ (getParticle ps e0).isSome then some p else getParticle ps e := by
  induction ps with
  | nil => intro e; simp [setParticle, getParticle]
  | cons hd tl ih =>
    intro e
    obtain ⟨i, q⟩ := hd
    by_cases hi0 : i = e0
    · subst hi0
      by_cases he : e = i
      · subst he
        simp [setParticle, getParticle]
      · have he' : ¬i = e := fun hh => he hh.symm
        simp [setParticle, getParticle, he, he']
    · by_cases he : i = e
      · subst he
        have hne : ¬(i = e0 ∧ (getParticle ((i, q) :: tl) e0).isSome) := fun h => hi0 h.1
        simp [setParticle, getParticle, hi0, hne]
      · simp [setParticle, getParticle, hi0, he, ih e]

theorem setParticle_skeleton (ps : List (ℕ × Particle)) (e0 : ℕ) (p p' : Particle)
    (hp : getParticle ps e0 = some p) (hskel : skeletonOf p' = skeletonOf p) (e : ℕ) :
    Option.map skeletonOf (getParticle (setParticle ps e0 p') e)
      = Option.map skeletonOf (getParticle ps e) := by
  rw [getParticle_setParticle]
  by_cases he : e = e0
  · subst he
    simp [hp, hskel]
  · simp [he]

theorem setParticle_velocity_skeleton (ps : List (ℕ × Particle)) (e0 : ℕ) (p : Particle)
    (v : Vec2) (hp : getParticle ps e0 = some p) (e : ℕ) :
    Option.map skeletonOf (getParticle (setParticle ps e0 { p with velocity := v }) e)
      = Option.map skeletonOf (getParticle ps e) :=
  setParticle_skeleton ps e0 p { p with velocity := v } hp rfl e

theorem outside_eq_none_iff (r : Rect) (p : Vec2) :
    r.outside p = none ↔
      ¬p.x < r.left ∧ ¬p.x > r.right ∧ ¬p.y < r.bottom ∧ ¬p.y > r.top := by
  by_cases h1 : p.x < r.left <;> by_cases h2 : p.x > r.right <;>
    by_cases h3 : p.y < r.bottom <;> by_cases h4 : p.y > r.top <;>
      simp [Rect.outside, Vec2.ZERO, h1, h2, h3, h4, Vec2.mk.injEq]

/-- C7: `Bounds.outside` returns `None` exactly on the closed rectangle
(boundary points included), and otherwise a normal with `x`-component `+1`
when the point is left of `left`, `−1` when right of `right`, `0` otherwise,
and analogously in `y` — so a point outside on both axes gets a diagonal,
non-unit normal formed additively.  The embedding is a pure function of the
rectangle and the point, reflecting that the source method takes `&self` and
writes nothing. -/
theorem c7_outside_characterization (r : Rect) (p : Vec2) :
    (r.outside p = none ↔ r.left ≤ p.x ∧ p.x ≤ r.right ∧ r.bottom ≤ p.y ∧ p.y ≤ r.top)
  ∧ ∀ n : Vec2, r.outside p = some n →
      n.x = (if p.x < r.left then 1 else if p.x > r.right then -1 else 0) ∧
      n.y = (if p.y < r.bottom then 1 else if p.y > r.top then -1 else 0) := by
  constructor
  · rw [outside_eq_none_iff]
    simp [not_lt, gt_iff_lt]
  · intro n hn
    by_cases h1 : p.x < r.left <;> by_cases h2 : p.x > r.right <;>
      by_cases h3 : p.y < r.bottom <;> by_cases h4 : p.y > r.top <;>
        simp [Rect.outside, Vec2.ZERO, h1, h2, h3, h4, Vec2.mk.injEq] at hn ⊢ <;>
          simp [← hn, h1, h2, h3, h4]

theorem c7_witness :
    ((ParticleLookup.new 40 20).bounds.outside ⟨-30, -30⟩ = some ⟨1, 1⟩)
  ∧ (⟨1, 1⟩ : Vec2).x
      = (if (⟨-30, -30⟩ : Vec2).x < (ParticleLookup.new 40 20).bounds.left then 1
         else if (⟨-30, -30⟩ : Vec2).x > (ParticleLookup.new 40 20).bounds.right then -1 else 0)
  ∧ (⟨1, 1⟩ : Vec2).y
      = (if (⟨-30, -30⟩ : Vec2).y < (ParticleLookup.new 40 20).bounds.bottom then 1
         else if (⟨-30, -30⟩ : Vec2).y > (ParticleLookup.new 40 20).bounds.top then -1 else 0) := by
  refine ⟨by decide, (c7_outside_characterization (ParticleLookup.new 40 20).bounds ⟨-30, -30⟩).2
    ⟨1, 1⟩ (by decide)⟩

/-- C4: detection first tests the bounds, emitting a `World` event with the
returned normal; otherwise an occupant of the predicted cell other than the
checked particle gives a `Particle` event; an empty cell or self-occupancy
gives no collision.  Stated as the equality of `check_for_collision` with a
definition written from the spec's words. -/
theorem c4_check_for_collision_refines (e : ℕ) (pos : Vec2) (lk : ParticleLookup) :
    check_for_collision e pos lk = checkForCollisionDescribed e pos lk := by
  rcases ho : lk.bounds.outside pos with _ | n
  · rcases hg : lk.get pos.floorVec with _ | o
    · simp [check_for_collision, checkForCollisionDescribed, ho, hg]
    · by_cases he : o = e <;>
        simp [check_for_collision, checkForCollisionDescribed, ho, hg, he]
  · simp [check_for_collision, checkForCollisionDescribed, ho]

/-- C6: one movement step commits `position += velocity` unconditionally
(velocity, mass, elasticity untouched); when the predicted cell differs from
the current cell the index drops the old entry only if it still maps to this
entity and then inserts the new cell for it, and when the cells agree the
index is untouched. -/
theorem c6_movement_step (e : ℕ) (p : Particle) (lk : ParticleLookup) :
    (movement_step e p lk).1 = { p with position := p.position + p.velocity }
  ∧ (movement_step e p lk).2 =
      if (p.position + p.velocity).floorVec ≠ p.position.floorVec then
        (if lk.get p.position.floorVec = some e then lk.remove p.position.floorVec
         else lk).insert (p.position + p.velocity).floorVec e
      else lk := by
  refine ⟨rfl, ?_⟩
  by_cases hc : p.position.floorVec = (p.position + p.velocity).floorVec <;>
    simp [movement_step, hc, ne_comm]

/-- C1: the end-of-tick invariant fails on the code (the claim is right about
the design intent, the code does not enforce it): running the engine from the
repo's startup state — the two particles `setup` spawns, `ParticleLookup::new(40, 20)`
bounds `[-20, 20] × [-10, 10]`, empty spatial index — with every frame a fixed
0.25 s tick, at the end of tick 9 particle 1 sits at `(10, -45/4)` with
`y = -11.25 < bottom = -10`, and `Bounds.outside` returns `some (0, 1)`, not
`None`.  The `WorldCollision` events discovered in tick 9 are only consumed by
the next frame's resolver, while `handle_movement` commits the out-of-bounds
position in the same tick. -/
theorem c1_invariant_fails_at_tick9 :
    Option.map (fun p => ((ParticleLookup.new 40 20).bounds.outside p.position, p.position))
        (getParticle (ticks axisNormalize pairHash 8 (1/4) 9 initialWorld).particles 1)
      = some (some ⟨0, 1⟩, ⟨10, -45/4⟩) := by decide

/-- C2: with two distinct, present particles, resolving a pair event computes
`calculate_collision` for both sides, assigns both velocities rounded to 2
decimals, recursively re-checks B alone, and then recomputes A once more
against B's post-recursion state (rounded, without re-checking A recursively)
— the code equals the step-by-step description written from the spec. -/
theorem c2_pair_resolution (nrm : Vec2 → Vec2) (fuel : ℕ) (a b : ℕ)
    (ps : List (ℕ × Particle)) (lk : ParticleLookup)
    (hab : a ≠ b) (ha : (getParticle ps a).isSome) (hb : (getParticle ps b).isSome) :
    handle_collision nrm (fuel + 1) (.Particle a b) ps lk
      = pairResolutionDescribed nrm fuel a b ps lk := by
  rcases hpa : getParticle ps a with _ | pa
  · rw [hpa] at ha; simp at ha
  rcases hpb : getParticle ps b with _ | pb
  · rw [hpb] at hb; simp at hb
  simp [handle_collision, resolveGo, pairResolutionDescribed, resolve_particle, hpa, hpb, hab,
    Vec2.round2_eq]

theorem c2_witness :
    ((1 : ℕ) ≠ 2 ∧ (getParticle initialParticles 1).isSome
        ∧ (getParticle initialParticles 2).isSome)
  ∧ handle_collision axisNormalize 2 (.Particle 1 2) initialParticles (ParticleLookup.new 40 20)
      = pairResolutionDescribed axisNormalize 1 1 2 initialParticles (ParticleLookup.new 40 20) :=
  ⟨⟨by decide, by decide, by decide⟩,
   c2_pair_resolution axisNormalize 1 1 2 initialParticles (ParticleLookup.new 40 20)
     (by decide) (by decide) (by decide)⟩

/-- C8: when a particle referenced by an event no longer exists in the store,
resolving that event leaves the whole store unchanged (the embedding is total,
mirroring that `get_many_mut` / `get_mut` fail without panicking and the `if
let Ok` bodies are skipped). -/
theorem c8_missing_participant_skips (nrm : Vec2 → Vec2) (fuel : ℕ)
    (ps : List (ℕ × Particle)) (lk : ParticleLookup) :
    (∀ a b : ℕ, getParticle ps a = none ∨ getParticle ps b = none →
        handle_collision nrm fuel (.Particle a b) ps lk = ps)
  ∧ ∀ (e : ℕ) (n : Vec2), getParticle ps e = none →
      handle_collision nrm fuel (.World e n) ps lk = ps := by
  constructor
  · intro a b hmiss
    cases fuel with
    | zero => rfl
    | succ fuel =>
      by_cases hab : a = b
      · simp [handle_collision, resolveGo, hab]
      · rcases hmiss with hm | hm <;>
          rcases hA : getParticle ps a with _ | pa <;>
            rcases hB : getParticle ps b with _ | pb <;>
              simp_all [handle_collision, resolveGo, hab]
  · intro e n hm
    cases fuel with
    | zero => rfl
    | succ fuel => simp [handle_collision, resolveGo, hm]

theorem c8_witness :
    getParticle initialParticles 3 = none
  ∧ handle_collision axisNormalize 5 (.Particle 1 3) initialParticles (ParticleLookup.new 40 20)
      = initialParticles :=
  ⟨by decide,
   (c8_missing_participant_skips axisNormalize 5 initialParticles (ParticleLookup.new 40 20)).1
     1 3 (Or.inr (by decide))⟩

theorem resolveGo_skeleton (nrm : Vec2 → Vec2) :
    ∀ (fuel : ℕ) (s : ParticleCollisionEvent ⊕ ℕ) (ps : List (ℕ × Particle))
      (lk : ParticleLookup) (e : ℕ),
      Option.map skeletonOf (getParticle (resolveGo nrm fuel s ps lk) e)
        = Option.map skeletonOf (getParticle ps e) := by
  intro fuel
  induction fuel with
  | zero => intro s ps lk e; rfl
  | succ fuel ih =>
    intro s ps lk e
    rcases s with ev | ent
    · rcases ev with ⟨ent, n⟩ | ⟨a, b⟩
      · -- World event
        rcases hp : getParticle ps ent with _ | p
        · simp [resolveGo, hp]
        · simp only [resolveGo, hp]
          rw [ih]
          exact setParticle_velocity_skeleton ps ent p _ hp e
      · -- Particle pair event
        by_cases hab : a = b
        · simp [resolveGo, hab]
        · rcases hpa : getParticle ps a with _ | pa
          · simp [resolveGo, hab, hpa]
          · rcases hpb : getParticle ps b with _ | pb
            · simp [resolveGo, hab, hpa, hpb]
            · have hb1 : getParticle (setParticle ps a
                  { pa with velocity := (calculate_collision pa pb * (100 : ℚ)).roundVec / (100 : ℚ) }) b
                    = some pb := by
                rw [getParticle_setParticle]
                have : ¬(b = a ∧ (getParticle ps a).isSome) := fun h => hab h.1.symm
                simp [this, hpb]
              have hchain : ∀ e',
                  Option.map skeletonOf (getParticle (resolveGo nrm fuel (.inr b)
                      (setParticle (setParticle ps a
                        { pa with velocity := (calculate_collision pa pb * (100 : ℚ)).roundVec / (100 : ℚ) }) b
                        { pb with velocity := (calculate_collision pb pa * (100 : ℚ)).roundVec / (100 : ℚ) }) lk) e')
                    = Option.map skeletonOf (getParticle ps e') := by
                intro e'
                rw [ih]
                rw [setParticle_velocity_skeleton _ b pb _ hb1 e']
                exact setParticle_velocity_skeleton ps a pa _ hpa e'
              simp only [resolveGo, hab, hpa, hpb, ne_eq, not_false_iff, if_true,
                ite_not]
              rcases hfa : getParticle (resolveGo nrm fuel (.inr b)
                  (setParticle (setParticle ps a
                    { pa with velocity := (calculate_collision pa pb * (100 : ℚ)).roundVec / (100 : ℚ) }) b
                    { pb with velocity := (calculate_collision pb pa * (100 : ℚ)).roundVec / (100 : ℚ) }) lk) a
                with _ | pa2
              · simp [hab, hfa, hchain e]
              · rcases hfb : getParticle (resolveGo nrm fuel (.inr b)
                    (setParticle (setParticle ps a
                      { pa with velocity := (calculate_collision pa pb * (100 : ℚ)).roundVec / (100 : ℚ) }) b
                      { pb with velocity := (calculate_collision pb pa * (100 : ℚ)).roundVec / (100 : ℚ) }) lk) b
                  with _ | pb2
                · simp [hab, hfa, hfb, hchain e]
                · simp only [hab, hfa, hfb]
                  rw [setParticle_velocity_skeleton _ a pa2 _ hfa e]
                  exact hchain e
    · -- resolve_particle body
      rcases hp : getParticle ps ent with _ | p
      · simp [resolveGo, hp]
      · by_cases hv : p.velocity = Vec2.ZERO
        · simp [resolveGo, hp, hv]
        · by_cases hpt : (p.position + p.velocity).floorVec = p.position.floorVec
          · simp [resolveGo, hp, hv, hpt]
          · rcases hc : check_for_collision ent (p.position + p.velocity) lk with _ | collision
            · simp [resolveGo, hp, hv, hpt, hc]
            · simp [resolveGo, hp, hv, hpt, hc]
              rw [ih]

/-- C10: resolving a collision event, including the whole recursive cascade,
changes only particle velocities: every particle's position, mass and
elasticity (and which particles exist) are untouched for any event, store and
fuel; and the resolver phase of a frame leaves the spatial index untouched
(`handle_collisions` reads the lookup through `Res`, never writing it, so the
index is mutated only by the movement phase). -/
theorem c10_resolution_touches_only_velocities (nrm : Vec2 → Vec2) :
    (∀ (fuel : ℕ) (ev : ParticleCollisionEvent) (ps : List (ℕ × Particle))
        (lk : ParticleLookup) (e : ℕ),
        Option.map skeletonOf (getParticle (handle_collision nrm fuel ev ps lk) e)
          = Option.map skeletonOf (getParticle ps e))
  ∧ ∀ (fuel : ℕ) (w : WorldState), (resolver_phase nrm fuel w).lookup = w.lookup :=
  ⟨fun fuel ev ps lk e => resolveGo_skeleton nrm fuel (.inl ev) ps lk e,
   fun _ _ => rfl⟩

theorem countPair_append (a b : ℕ) (evs₁ evs₂ : List ParticleCollisionEvent) :
    countPair a b (evs₁ ++ evs₂) = countPair a b evs₁ + countPair a b evs₂ := by
  simp [countPair, List.filter_append]

theorem countPair_append_world (a b e : ℕ) (n : Vec2) (evs : List ParticleCollisionEvent) :
    countPair a b (evs ++ [.World e n]) = countPair a b evs := by
  simp [countPair_append, countPair, List.filter, pairEventMatches]

/-- Per-particle step of the dedup invariant: after one loop body, the pass
still holds at most one event for the unordered pair `{a, b}`, and whenever it
holds one, one of the pair's two fingerprints is in the handled set. -/
theorem discover_emit_dedup (h : ℕ → ℕ → ℕ) (lk : ParticleLookup) (entity : ℕ)
    (particle : Particle) (a b : ℕ) (handled : List ℕ) (events : List ParticleCollisionEvent)
    (h1 : countPair a b events ≤ 1)
    (h2 : 1 ≤ countPair a b events → h a b ∈ handled ∨ h b a ∈ handled) :
    countPair a b (discover_emit h lk entity particle handled events).2 ≤ 1
  ∧ (1 ≤ countPair a b (discover_emit h lk entity particle handled events).2 →
      h a b ∈ (discover_emit h lk entity particle handled events).1
        ∨ h b a ∈ (discover_emit h lk entity particle handled events).1) := by
  unfold discover_emit
  by_cases hv : particle.velocity = Vec2.ZERO
  · rw [if_neg (not_not_intro hv)]
    exact ⟨h1, h2⟩
  · rw [if_pos hv]
    by_cases hpt : (particle.position + particle.velocity).floorVec = particle.position.floorVec
    · rw [if_neg (not_not_intro hpt)]
      exact ⟨h1, h2⟩
    · rw [if_pos hpt]
      rcases hc : check_for_collision entity (particle.position + particle.velocity) lk with _ | collision
      · exact ⟨h1, h2⟩
      · rcases collision with ⟨e, n⟩ | ⟨x, y⟩
        · dsimp only
          simpa [countPair_append_world] using ⟨h1, h2⟩
        · dsimp only
          by_cases hx : h x y ∈ handled
          · rw [if_pos hx]
            exact ⟨h1, h2⟩
          · rw [if_neg hx]
            by_cases hy : h y x ∈ handled
            · rw [if_pos hy]
              exact ⟨h1, h2⟩
            · rw [if_neg hy]
              by_cases hmatch : pairEventMatches a b (.Particle x y) = true
              · have hcount1 : countPair a b [ParticleCollisionEvent.Particle x y] = 1 := by
                  simp [countPair, List.filter, hmatch]
                have hcases : (x = a ∧ y = b) ∨ (x = b ∧ y = a) := by
                  simpa [pairEventMatches, Bool.or_eq_true, Bool.and_eq_true, beq_iff_eq]
                    using hmatch
                have hzero : countPair a b events = 0 := by
                  by_contra hne
                  have hge : 1 ≤ countPair a b events := Nat.one_le_iff_ne_zero.mpr hne
                  rcases hcases with ⟨rfl, rfl⟩ | ⟨rfl, rfl⟩
                  · rcases h2 hge with hmem | hmem
                    · exact hx hmem
                    · exact hy hmem
                  · rcases h2 hge with hmem | hmem
                    · exact hy hmem
                    · exact hx hmem
                constructor
                · rw [countPair_append, hzero, hcount1]
                · intro _
                  rcases hcases with ⟨rfl, rfl⟩ | ⟨rfl, rfl⟩
                  · exact Or.inl (List.mem_cons_self _ _)
                  · exact Or.inr (List.mem_cons_self _ _)
              · have hcount0 : countPair a b [ParticleCollisionEvent.Particle x y] = 0 := by
                  simp [countPair, List.filter, hmatch]
                constructor
                · rw [countPair_append, hcount0]
                  simpa using h1
                · intro hge
                  rw [countPair_append, hcount0] at hge
                  simp only [Nat.add_zero] at hge
                  exact (h2 hge).imp (List.mem_cons_of_mem _) (List.mem_cons_of_mem _)

/-- Pass-level dedup invariant, by induction over the iteration. -/
theorem discoverGo_dedup (h : ℕ → ℕ → ℕ) (dt : ℚ) (lk : ParticleLookup) (a b : ℕ) :
    ∀ (ps : List (ℕ × Particle)) (handled : List ℕ) (events : List ParticleCollisionEvent),
      countPair a b events ≤ 1 →
      (1 ≤ countPair a b events → h a b ∈ handled ∨ h b a ∈ handled) →
      countPair a b (discoverGo h dt lk ps handled events).2.2 ≤ 1 := by
  intro ps
  induction ps with
  | nil =>
    intro handled events h1 h2
    simpa [discoverGo] using h1
  | cons hd tl ih =>
    intro handled events h1 h2
    obtain ⟨entity, particle⟩ := hd
    have hstep := discover_emit_dedup h lk entity
      { particle with velocity := particle.velocity + Particle.GRAVITY * dt } a b
      handled events h1 h2
    simpa [discoverGo] using ih _ _ hstep.1 hstep.2

/-- C5: within a single discovery pass at most one `ParticlePairCollision`
event is emitted per unordered pair of particles — regardless of the
fingerprint function, since both orderings of a pair are checked before
emitting and the emitted ordering's fingerprint is recorded; and in the
spec's head-on scenario (particle 1 and particle 2 each predicted to enter
the other's cell in the same pass) exactly one event is produced, not two. -/
theorem c5_pair_deduplication :
    (∀ (h : ℕ → ℕ → ℕ) (dt : ℚ) (lk : ParticleLookup) (ps : List (ℕ × Particle)) (a b : ℕ),
        countPair a b (discover_collisions h dt lk ps).2.2 ≤ 1)
  ∧ ∀ h : ℕ → ℕ → ℕ,
      (discover_collisions h (1/4) headOnLookup headOnParticles).2.2
        = [.Particle 1 2] := by
  constructor
  · intro h dt lk ps a b
    exact discoverGo_dedup h dt lk a b ps [] [] (by simp [countPair]) (by simp [countPair])
  · intro h
    rcases eq_or_ne (h 2 1) (h 1 2) with hc | hc <;>
      norm_num [discover_collisions, discoverGo, discover_emit, check_for_collision,
        ParticleLookup.get, lookupCell, Rect.outside, Vec2.floorVec, Vec2.ZERO,
        Particle.GRAVITY, headOnParticles, headOnLookup, ParticleLookup.new,
        Vec2.add_def, Vec2.hmul_def, Vec2.mk.injEq, IVec2.mk.injEq, hc]

/-- C9, counterexample: the claimed energy bound fails when the two
elasticities differ — with `elasticity(A) = 1`, `elasticity(B) = 0`, unit
masses, `A` at rest and `B` moving, the combined kinetic energy after
`calculate_collision` on both sides is `5/8`, strictly above the prior `1/2`;
and the claimed equality condition fails too — with equal velocities and both
elasticities `0`, energies are exactly preserved although neither elasticity
is `1`. -/
theorem c9_counterexample :
    (kineticEnergy ce9A + kineticEnergy ce9B
        < keOf ce9A.mass (calculate_collision ce9A ce9B)
            + keOf ce9B.mass (calculate_collision ce9B ce9A))
  ∧ (keOf ce9C.mass (calculate_collision ce9C ce9D)
        + keOf ce9D.mass (calculate_collision ce9D ce9C)
        = kineticEnergy ce9C + kineticEnergy ce9D
      ∧ ce9C.elasticity ≠ 1 ∧ ce9D.elasticity ≠ 1) := by decide

/-- C9, amended: for two particles with positive masses and a common
elasticity `e ∈ [0, 1]`, the combined kinetic energy after
`calculate_collision` on both sides (before quantization) is at most the
combined kinetic energy before, with equality exactly when `e = 1` or the two
velocities are equal. -/
theorem c9_energy_bound (pa pb : Particle) (hma : 0 < pa.mass) (hmb : 0 < pb.mass)
    (he : pb.elasticity = pa.elasticity) (he0 : 0 ≤ pa.elasticity)
    (he1 : pa.elasticity ≤ 1) :
    keOf pa.mass (calculate_collision pa pb) + keOf pb.mass (calculate_collision pb pa)
      ≤ kineticEnergy pa + kineticEnergy pb
  ∧ (keOf pa.mass (calculate_collision pa pb) + keOf pb.mass (calculate_collision pb pa)
        = kineticEnergy pa + kineticEnergy pb
      ↔ pa.elasticity = 1 ∨ pa.velocity = pb.velocity) := by
  obtain ⟨Pa, ⟨vax, vay⟩, ma, ea⟩ := pa
  obtain ⟨Pb, ⟨vbx, vby⟩, mb, eb⟩ := pb
  simp only at hma hmb he he0 he1
  subst he
  have hM : (0 : ℚ) < ma + mb := by linarith
  have hM' : ma + mb ≠ 0 := ne_of_gt hM
  have key :
      kineticEnergy ⟨Pa, ⟨vax, vay⟩, ma, eb⟩ + kineticEnergy ⟨Pb, ⟨vbx, vby⟩, mb, eb⟩
        - (keOf ma (calculate_collision ⟨Pa, ⟨vax, vay⟩, ma, eb⟩ ⟨Pb, ⟨vbx, vby⟩, mb, eb⟩)
            + keOf mb (calculate_collision ⟨Pb, ⟨vbx, vby⟩, mb, eb⟩ ⟨Pa, ⟨vax, vay⟩, ma, eb⟩))
        = ma * mb * (1 - eb ^ 2) * ((vbx - vax) ^ 2 + (vby - vay) ^ 2)
            / (2 * (ma + mb)) := by
    simp only [kineticEnergy, keOf, calculate_collision, Vec2.smul_def, Vec2.add_def,
      Vec2.sub_def, Vec2.hdiv_def]
    field_simp
    ring
  have hS : (0 : ℚ) ≤ (vbx - vax) ^ 2 + (vby - vay) ^ 2 := by positivity
  have he2 : eb ^ 2 ≤ 1 := by nlinarith
  have hnum : (0 : ℚ) ≤ ma * mb * (1 - eb ^ 2) * ((vbx - vax) ^ 2 + (vby - vay) ^ 2) :=
    mul_nonneg (mul_nonneg (mul_nonneg hma.le hmb.le) (by linarith)) hS
  have hq : (0 : ℚ) ≤ ma * mb * (1 - eb ^ 2) * ((vbx - vax) ^ 2 + (vby - vay) ^ 2)
      / (2 * (ma + mb)) := div_nonneg hnum (by linarith)
  constructor
  · linarith [key, hq]
  · constructor
    · intro heq
      have hzero : ma * mb * (1 - eb ^ 2) * ((vbx - vax) ^ 2 + (vby - vay) ^ 2)
          / (2 * (ma + mb)) = 0 := by linarith [key]
      rw [div_eq_zero_iff] at hzero
      rcases hzero with hzero | hzero
      · rcases mul_eq_zero.mp hzero with hzero | hSz
        · rcases mul_eq_zero.mp hzero with hzero | hez
          · rcases mul_eq_zero.mp hzero with hz | hz
            · exact absurd hz (ne_of_gt hma)
            · exact absurd hz (ne_of_gt hmb)
          · left
            have : (eb - 1) * (eb + 1) = 0 := by ring_nf; linarith [hez]
            rcases mul_eq_zero.mp this with hz | hz
            · have : eb = 1 := by linarith
              simpa using this
            · have : eb = -1 := by linarith
              exfalso; linarith
        · right
          have h1 : (vbx - vax) ^ 2 = 0 := by
            linarith [sq_nonneg (vbx - vax), sq_nonneg (vby - vay)]
          have h2 : (vby - vay) ^ 2 = 0 := by
            linarith [sq_nonneg (vbx - vax), sq_nonneg (vby - vay)]
          have hx : vax = vbx := by
            have := pow_eq_zero_iff (two_ne_zero) |>.mp h1
            linarith
          have hy : vay = vby := by
            have := pow_eq_zero_iff (two_ne_zero) |>.mp h2
            linarith
          simp [Vec2.mk.injEq, hx, hy]
      · exfalso; linarith
    · intro hcase
      have hSz : ma * mb * (1 - eb ^ 2) * ((vbx - vax) ^ 2 + (vby - vay) ^ 2) = 0 := by
        rcases hcase with h1 | hveq
        · simp only at h1
          rw [h1]; ring
        · have hx : vax = vbx := by
            have := congrArg Vec2.x hveq
            simpa using this
          have hy : vay = vby := by
            have := congrArg Vec2.y hveq
            simpa using this
          rw [hx, hy]; ring
      have : ma * mb * (1 - eb ^ 2) * ((vbx - vax) ^ 2 + (vby - vay) ^ 2)
          / (2 * (ma + mb)) = 0 := by rw [hSz]; simp
      linarith [key, this]

theorem c9_witness :
    ((0 : ℚ) < pOne.mass ∧ (0 : ℚ) < pTwo.mass ∧ pTwo.elasticity = pOne.elasticity
        ∧ (0 : ℚ) ≤ pOne.elasticity ∧ pOne.elasticity ≤ 1)
  ∧ (keOf pOne.mass (calculate_collision pOne pTwo)
        + keOf pTwo.mass (calculate_collision pTwo pOne)
        ≤ kineticEnergy pOne + kineticEnergy pTwo
    ∧ (keOf pOne.mass (calculate_collision pOne pTwo)
          + keOf pTwo.mass (calculate_collision pTwo pOne)
          = kineticEnergy pOne + kineticEnergy pTwo
        ↔ pOne.elasticity = 1 ∨ pOne.velocity = pTwo.velocity)) :=
  ⟨⟨by decide, by decide, by decide, by decide, by decide⟩,
   c9_energy_bound pOne pTwo (by decide) (by decide) (by decide) (by decide) (by decide)⟩

theorem sqrt_two_sq : Real.sqrt 2 * Real.sqrt 2 = 2 :=
  Real.mul_self_sqrt (by norm_num)

theorem sqrt_two_pos : 0 < Real.sqrt 2 := Real.sqrt_pos.mpr (by norm_num)

/-- C3, counterexample: on the diagonal normal `(1, 1)` the code's
componentwise product disagrees with the claim's dot product.  With velocity
`(1, 0)` and elasticity `1/2`, the code leaves the `y`-component `0` (since
`velocity.y * normal.y = 0`), while the claimed formula subtracts
`(3/2)·(v·n)/√2` from it, giving `-1.06` after rounding. -/
theorem c3_counterexample :
    wall_reflect (1, 0) (1, 1) (1/2) ≠ wall_reflect_claimed (1, 0) (1, 1) (1/2) := by
  have hlen : lengthR (1, 1) = Real.sqrt 2 := by norm_num [lengthR]
  have hA : (wall_reflect (1, 0) (1, 1) (1/2)).2 = 0 := by
    simp only [wall_reflect, hlen, normalizeR]
    norm_num [roundTo2R, roundAwayR]
  have hfloor : ⌊75 * Real.sqrt 2 + 1/2⌋ = (106 : ℤ) := by
    rw [Int.floor_eq_iff]
    constructor
    · have h1 : (105.5 : ℝ) ≤ 75 * Real.sqrt 2 := by
        nlinarith [sqrt_two_sq, sqrt_two_pos]
      push_cast
      linarith
    · have h2 : 75 * Real.sqrt 2 < (106.5 : ℝ) := by
        nlinarith [sqrt_two_sq, sqrt_two_pos]
      push_cast
      linarith
  have hB : (wall_reflect_claimed (1, 0) (1, 1) (1/2)).2 = -(106 : ℝ)/100 := by
    simp only [wall_reflect_claimed, hlen, normalizeR]
    have harg : ((0 : ℝ) - (1 + 1/2) * ((1 : ℝ) * 1 + 0 * 1) * (1 / Real.sqrt 2)) * 100
        = -(75 * Real.sqrt 2) := by
      have hne : Real.sqrt 2 ≠ 0 := ne_of_gt sqrt_two_pos
      field_simp
      nlinarith [sqrt_two_sq]
    rw [roundTo2R]
    norm_num at harg ⊢
    rw [harg, roundAwayR]
    rw [if_neg (by nlinarith [sqrt_two_pos])]
    norm_num [hfloor]
  intro hcontra
  have h2 := congrArg Prod.snd hcontra
  rw [hA, hB] at h2
  norm_num at h2

/-- C3, amended: what the code computes on a `WorldCollision` is
`velocity − (1+elasticity)·(velocity ⊙ normal) ⊙ normalize(normal)` with
glam's componentwise products (not the claim's dot product) — the two agree
whenever the normal is one of the axis-aligned unit normals `(±1, 0)`,
`(0, ±1)` that a single wall produces; each component is rounded to 2 decimal
places and afterwards the same entity is recursively re-checked for a further
collision. -/
theorem c3_wall_reflection (nrm : Vec2 → Vec2) :
    (∀ (v : ℝ × ℝ) (e : ℝ) (n : ℝ × ℝ),
        n = (1, 0) ∨ n = (-1, 0) ∨ n = (0, 1) ∨ n = (0, -1) →
        wall_reflect v n e = wall_reflect_claimed v n e)
  ∧ ∀ (fuel : ℕ) (ent : ℕ) (n : Vec2) (ps : List (ℕ × Particle))
      (lk : ParticleLookup) (p : Particle), getParticle ps ent = some p →
      handle_collision nrm (fuel + 1) (.World ent n) ps lk
        = resolve_particle nrm fuel ent
            (setParticle ps ent
              { p with velocity :=
                  ((p.velocity - ((1 + p.elasticity) • (p.velocity * n)) * nrm n)
                      * (100 : ℚ)).roundVec / (100 : ℚ) }) lk := by
  constructor
  · rintro ⟨v1, v2⟩ e n (rfl | rfl | rfl | rfl) <;>
      simp [wall_reflect, wall_reflect_claimed, normalizeR, lengthR]
  · intro fuel ent n ps lk p hp
    simp [handle_collision, resolve_particle, resolveGo, hp]

theorem c3_witness :
    wall_reflect (3, 4) (0, 1) (1/2) = wall_reflect_claimed (3, 4) (0, 1) (1/2)
  ∧ getParticle initialParticles 1 = some pOne
  ∧ handle_collision axisNormalize 1 (.World 1 ⟨0, 1⟩) initialParticles
        (ParticleLookup.new 40 20)
      = resolve_particle axisNormalize 0 1
          (setParticle initialParticles 1
            { pOne with velocity :=
                ((pOne.velocity - ((1 + pOne.elasticity) • (pOne.velocity * (⟨0, 1⟩ : Vec2)))
                      * axisNormalize ⟨0, 1⟩) * (100 : ℚ)).roundVec / (100 : ℚ) })
          (ParticleLookup.new 40 20) :=
  ⟨(c3_wall_reflection axisNormalize).1 (3, 4) (1/2) (0, 1) (Or.inr (Or.inr (Or.inl rfl))),
   by decide,
   (c3_wall_reflection axisNormalize).2 0 1 ⟨0, 1⟩ initialParticles
     (ParticleLookup.new 40 20) pOne (by decide)⟩

end Arrakoids
